import Mathlib

/-!
Shallow embedding of the ThunderData pipeline core
(`src/core/pipeline.py`, `src/core/parallel.py`), of the
feature-operation interpreter
(`src/transformers/advanced.py::FeatureEngineeringTransformer.transform`,
`src/core/parallel.py::ParallelFeatureEngineering._transform_chunk`)
and of the shipped validators (`src/validators/data_quality.py`,
`src/validators/advanced.py`), together with theorems settling the
specification claims about them.

Modelling conventions:
* A table handed to the pipeline engine is a list of rows (an opaque row
  type `α`); `data.iloc[i:i+cs]` is `(List.drop (i*cs) data).take cs` and
  `pd.concat` of a nonempty list of chunks is `List.join`.
* Python exceptions are `Except`.  A raised exception object carries the
  raising frame in its traceback, so the error value of a transformer
  failure records the failing transformer's name; the chunk worker of
  `parallel.py` puts no chunk index anywhere in the raised error, and
  neither does the model.
* `datetime.now()` / `pd.Timestamp.now()` is an explicit `now : Nat`
  argument.
* For the columnar claims, cells are `Option ℚ` with `none` playing the
  role of pandas `NaN` (missing), and a frame is an insertion-ordered
  association list from column name to column.
-/

/-- A registered validator: `DataValidator` of `pipeline.py`.  `name`
models `validator.__class__.__name__`. -/
structure DValidator (α : Type) where
  name : String
  validate : List α → Bool

/-- A registered transformer: `DataTransformer` of `pipeline.py`.  `name`
models `transformer.__class__.__name__`; `transform` may fail
(a raising Python transformer). -/
structure DTransformer (α : Type) where
  name : String
  transform : List α → Except String (List α)

/-- Errors escaping `process`.  `validationFailed v` is
`ValueError(f"Data validation failed: v")`; `transformFailed t msg` is an
exception raised inside transformer `t` (the traceback of the propagated
exception identifies `t`); `emptyConcat` is the `ValueError` raised by
`pd.concat([])` on an empty chunk list. -/
inductive PipeError where
  | validationFailed (validatorName : String)
  | transformFailed (transformerName : String) (msg : String)
  | emptyConcat
deriving DecidableEq

/-- `Pipeline` of `pipeline.py`: ordered validator and transformer lists
plus the metadata dict `{created_at, last_run, runs}` (the key
`chunks_processed` is absent, `none`, until a parallel run sets it). -/
structure Pipeline (α : Type) where
  name : String
  validators : List (DValidator α) := []
  transformers : List (DTransformer α) := []
  created_at : Nat := 0
  last_run : Option Nat := none
  runs : Nat := 0
  chunks_processed : Option Nat := none

/-- `Pipeline.add_validator`: append-only registration. -/
def Pipeline.add_validator (p : Pipeline α) (v : DValidator α) : Pipeline α :=
  { p with validators := p.validators ++ [v] }

/-- `Pipeline.add_transformer`: append-only registration. -/
def Pipeline.add_transformer (p : Pipeline α) (t : DTransformer α) : Pipeline α :=
  { p with transformers := p.transformers ++ [t] }

/-- The validator loop of `Pipeline.process` / `_process_chunk`: first
validator returning false yields `ValueError` naming that validator;
later validators are never consulted. -/
def runValidators (vs : List (DValidator α)) (data : List α) : Option PipeError :=
  match vs with
  | [] => none
  | v :: rest =>
    if v.validate data then runValidators rest data
    else some (.validationFailed v.name)

/-- The transformer loop of `Pipeline.process` / `_process_chunk`: each
transformer's output feeds the next; a raising transformer aborts the
loop with an error naming it. -/
def runTransformers (ts : List (DTransformer α)) (data : List α) :
    Except PipeError (List α) :=
  match ts with
  | [] => .ok data
  | t :: rest =>
    match t.transform data with
    | .error msg => .error (.transformFailed t.name msg)
    | .ok d => runTransformers rest d

/-- `Pipeline.process` of `pipeline.py`: validate the whole input in
registration order (fail fast), then fold the transformers over a copy of
the input, then update `last_run` and `runs`.  The returned pipeline is
the post-state of `self`; on any error the state is returned unchanged
because the metadata lines are never reached. -/
def Pipeline.process (p : Pipeline α) (now : Nat) (data : List α) :
    Pipeline α × Except PipeError (List α) :=
  match runValidators p.validators data with
  | some e => (p, .error e)
  | none =>
    match runTransformers p.transformers data with
    | .error e => (p, .error e)
    | .ok out =>
      ({ p with last_run := some now, runs := p.runs + 1 }, .ok out)

/-- `ParallelPipeline` of `parallel.py`.  `n_jobs` is the resolved worker
count (the constructor replaces a non-positive argument by
`multiprocessing.cpu_count()`, which is at least 1); `backend` selects
`ProcessPoolExecutor` versus `ThreadPoolExecutor`, which have identical
value-level semantics here. -/
structure ParallelPipeline (α : Type) extends Pipeline α where
  n_jobs : Nat := 1
  backend : String := "process"

/-- Chunk-size resolution in `ParallelPipeline.process`: a supplied
`chunk_size` is used as is; otherwise
`chunk_size = max(len(data) // (n_jobs * 4), 1000)`. -/
def resolvedChunkSize (njobs : Nat) (len : Nat) (chunk_size : Option Nat) : Nat :=
  match chunk_size with
  | some c => c
  | none => max (len / (njobs * 4)) 1000

/-- The chunk comprehension
`[data.iloc[i:i + chunk_size] for i in range(0, len(data), chunk_size)]`:
row slices starting at 0, cs, 2*cs, ...; for cs ≥ 1 there are
`⌈len/cs⌉ = (len + cs - 1) / cs` of them. -/
def chunkList (cs : Nat) (xs : List α) : List (List α) :=
  (List.range ((xs.length + cs - 1) / cs)).map fun i => (xs.drop (i * cs)).take cs

/-- `ParallelPipeline._process_chunk`: validators in order (fail fast,
error names the validator only), then the transformer fold. -/
def processChunk (p : Pipeline α) (chunk : List α) : Except PipeError (List α) :=
  match runValidators p.validators chunk with
  | some e => .error e
  | none => runTransformers p.transformers chunk

/-- `list(executor.map(self._process_chunk, chunks))`: results come back
in chunk order, and the error of the earliest-index failing chunk is the
one raised while the list is materialised. -/
def processChunks (p : Pipeline α) (chunks : List (List α)) :
    Except PipeError (List (List α)) :=
  match chunks with
  | [] => .ok []
  | c :: rest =>
    match processChunk p c with
    | .error e => .error e
    | .ok r =>
      match processChunks p rest with
      | .error e => .error e
      | .ok rs => .ok (r :: rs)

/-- `ParallelPipeline.process` of `parallel.py`: resolve the chunk size,
slice the table, map the chunk worker over the chunks, then
`pd.concat(processed_chunks)` (which raises on an empty chunk list), then
update `last_run`, `runs` and `chunks_processed`.  On any error the
pipeline state is returned unchanged. -/
def ParallelPipeline.process (p : ParallelPipeline α) (now : Nat)
    (data : List α) (chunk_size : Option Nat) :
    ParallelPipeline α × Except PipeError (List α) :=
  let cs := resolvedChunkSize p.n_jobs data.length chunk_size
  let chunks := chunkList cs data
  match processChunks p.toPipeline chunks with
  | .error e => (p, .error e)
  | .ok results =>
    if results.isEmpty then (p, .error .emptyConcat)
    else
      ({ p with last_run := some now, runs := p.runs + 1,
                chunks_processed := some chunks.length },
       .ok results.flatten)

/-- Formalisation of "stateless and chunk-order-independent" for a
validator: its verdict on a concatenation of row blocks is the
conjunction of its verdicts on the blocks (row-local quality checks such
as range or pattern checks have this shape). -/
def ValidatorChunkLocal {α : Type} (v : DValidator α) : Prop :=
  ∀ a b : List α, v.validate (a ++ b) = (v.validate a && v.validate b)

/-- Formalisation of "stateless and chunk-order-independent" for a
transformer: it maps a concatenation of row blocks to the concatenation
of its outputs on the blocks, failing exactly when it fails on a block
(row-wise, map-like transformers have this shape). -/
def TransformerChunkLocal {α : Type} (t : DTransformer α) : Prop :=
  ∀ a b : List α,
    t.transform (a ++ b) =
      match t.transform a with
      | .error e => .error e
      | .ok ra =>
        match t.transform b with
        | .error e => .error e
        | .ok rb => .ok (ra ++ rb)

/-! ### Columnar model for the feature-operation interpreter and the
shipped validators.  A cell is `Option ℚ`: `none` plays the role of
pandas `NaN` (missing value); a frame is an insertion-ordered
association list from column name to column. -/

abbrev Cell := Option ℚ

abbrev Column := List Cell

abbrev Frame := List (String × Column)

/-- Column lookup without raising: `column in data.columns` / plain
access combined. -/
def getCol? : Frame → String → Option Column
  | [], _ => none
  | (k, c) :: rest, name => if k = name then some c else getCol? rest name

/-- `data[name]`: raises `KeyError` when the column is absent. -/
def getCol (df : Frame) (name : String) : Except String Column :=
  match getCol? df name with
  | some c => .ok c
  | none => .error ("KeyError: " ++ name)

/-- `df[name] = col`: replaces an existing column in place, otherwise
appends the new column at the end (pandas column assignment). -/
def setCol : Frame → String → Column → Frame
  | [], name, col => [(name, col)]
  | (k, c) :: rest, name, col =>
    if k = name then (k, col) :: rest else (k, c) :: setCol rest name col

/-- Row count of a frame (all columns share it by the table invariant). -/
def nRows (df : Frame) : Nat :=
  match df with
  | [] => 0
  | (_, c) :: _ => c.length

/-- The non-missing values of a cell sequence (pandas `skipna`). -/
def cellVals (c : List Cell) : List ℚ := c.filterMap id

/-- Cell multiplication: `NaN` is absorbing, as in pandas arithmetic. -/
def cellMul : Cell → Cell → Cell
  | some a, some b => some (a * b)
  | _, _ => none

/-- Element-wise product of two columns (`df[c0] * df[c1]`). -/
def colMul (a b : Column) : Column := List.zipWith cellMul a b

/-- The observations inside the rolling window ending at row `i` (the
last `w` rows up to and including `i`), with missing cells dropped. -/
def rollingVals (xs : Column) (w i : Nat) : List ℚ :=
  cellVals ((xs.take (i + 1)).drop (i + 1 - w))

/-- `Series.rolling(window=w).agg('mean')` with the pandas default
`min_periods = w`: a row whose window holds fewer than `w` observations
gets `NaN`; otherwise the mean of the `w` observations. -/
def rollingMean (w : Nat) (xs : Column) : Column :=
  (List.range xs.length).map fun i =>
    let vals := rollingVals xs w i
    if vals.length < w then none else some (vals.sum / (w : ℚ))

/-- `Series.rolling(window=w).agg('sum')` with the pandas default
`min_periods = w`. -/
def rollingSum (w : Nat) (xs : Column) : Column :=
  (List.range xs.length).map fun i =>
    let vals := rollingVals xs w i
    if vals.length < w then none else some vals.sum

/-- Dispatch of `rolling(...).agg(op)` on the aggregation name; names
other than the ones exercised in this repository's operation lists are
outside the modelled fragment and error out, as pandas raises for an
unknown aggregation string. -/
def rollingAgg (opn : String) (w : Nat) (xs : Column) : Except String Column :=
  if opn = "mean" then .ok (rollingMean w xs)
  else if opn = "sum" then .ok (rollingSum w xs)
  else .error ("unsupported rolling aggregation: " ++ opn)

/-- The row-`i` observations across a list of columns
(`df[cols]` row slice, `skipna`). -/
def rowVals (cols : List Column) (i : Nat) : List ℚ :=
  cellVals (cols.map fun c => c.getD i none)

/-- `df[cols].agg(op, axis=1)`: row-wise aggregation across the listed
columns with pandas `skipna` semantics (`mean` of an all-missing row is
`NaN`, `sum` is 0). -/
def rowAgg (opn : String) (cols : List Column) (n : Nat) : Except String Column :=
  if opn = "mean" then
    .ok ((List.range n).map fun i =>
      let v := rowVals cols i
      if v.length = 0 then none else some (v.sum / (v.length : ℚ)))
  else if opn = "sum" then
    .ok ((List.range n).map fun i => some (rowVals cols i).sum)
  else .error ("unsupported aggregation: " ++ opn)

/-- One operation descriptor of the feature-operation mini-language
(`FeatureEngineeringTransformer.__init__` docstring): a tagged record
with input columns, an aggregation name, an optional window size
(`op.get('window', 3)` supplies the default 3) and the output column. -/
structure FeatOp where
  type : String
  columns : List String := []
  operation : String := ""
  window : Option Nat := none
  new_column : String := ""

/-- `op['columns'][i]`: list indexing raising `IndexError` when out of
range. -/
def listIdx (l : List String) (i : Nat) : Except String String :=
  match l.get? i with
  | some s => .ok s
  | none => .error "IndexError: list index out of range"

/-- The body of the `for op in self.operations` loop shared by
`FeatureEngineeringTransformer.transform` and
`ParallelFeatureEngineering._transform_chunk`: three recognised tags,
and **no** `else` branch — an unrecognised tag leaves the frame
untouched. -/
def applyFeatOp (df : Frame) (op : FeatOp) : Except String Frame :=
  if op.type = "arithmetic" then do
    let cols ← op.columns.mapM (getCol df)
    let newcol ← rowAgg op.operation cols (nRows df)
    pure (setCol df op.new_column newcol)
  else if op.type = "window" then do
    let c0 ← listIdx op.columns 0
    let col ← getCol df c0
    let newcol ← rollingAgg op.operation (op.window.getD 3) col
    pure (setCol df op.new_column newcol)
  else if op.type = "interaction" then do
    let c0 ← listIdx op.columns 0
    let c1 ← listIdx op.columns 1
    let col0 ← getCol df c0
    let col1 ← getCol df c1
    pure (setCol df op.new_column (colMul col0 col1))
  else pure df

/-- `FeatureEngineeringTransformer.transform` /
`ParallelFeatureEngineering._transform_chunk`: fold the operation list
over a copy of the input frame.  The constructor merely stores the
operation list, so there is no registration-time checking to model. -/
def featureTransform (ops : List FeatOp) (df : Frame) : Except String Frame :=
  match ops with
  | [] => .ok df
  | op :: rest => do
    let df2 ← applyFeatOp df op
    featureTransform rest df2

/-! ### Shipped validators (`validators/data_quality.py`,
`validators/advanced.py`) over the columnar model. -/

/-- `ColumnExistenceValidator`. -/
structure ColumnExistenceValidator where
  required_columns : List String

/-- `all(col in data.columns for col in self.required_columns)`. -/
def ColumnExistenceValidator.validate (v : ColumnExistenceValidator)
    (df : Frame) : Bool :=
  v.required_columns.all fun c => (getCol? df c).isSome

/-- `DataTypeValidator`. -/
structure DataTypeValidator where
  dtype_requirements : List (String × String)

/-- Pandas dtype inference restricted to this numeric model: a column
with a missing cell is `float64`, an all-integral column is `int64`,
anything else `float64`. -/
def dtypeOf (c : Column) : String :=
  if c.any fun x => x.isNone then "float64"
  else if c.all fun x => (x.getD 0).den = 1 then "int64"
  else "float64"

/-- `DataTypeValidator.validate`: a missing column returns `False`
before any dtype is inspected. -/
def DataTypeValidator.validate (v : DataTypeValidator) (df : Frame) : Bool :=
  v.dtype_requirements.all fun kv =>
    match getCol? df kv.1 with
    | none => false
    | some c => dtypeOf c = kv.2

/-- `ValueRangeValidator`; a range entry is (column, min, max) with
either bound optional. -/
structure ValueRangeValidator where
  ranges : List (String × Option ℚ × Option ℚ)

/-- `Series.min()` with `skipna`: `NaN` (none) on an all-missing column. -/
def colMin (c : Column) : Option ℚ := (cellVals c).min?

/-- `Series.max()` with `skipna`. -/
def colMax (c : Column) : Option ℚ := (cellVals c).max?

/-- `ValueRangeValidator.validate`: missing column returns `False`; a
`NaN` extremum compares false against any bound, so the check passes. -/
def ValueRangeValidator.validate (v : ValueRangeValidator) (df : Frame) : Bool :=
  v.ranges.all fun r =>
    match getCol? df r.1 with
    | none => false
    | some c =>
      (match r.2.1, colMin c with
       | some m, some x => ! decide (x < m)
       | _, _ => true) &&
      (match r.2.2, colMax c with
       | some m, some x => ! decide (m < x)
       | _, _ => true)

/-- `UniqueValidator`. -/
structure UniqueValidator where
  columns : List String

/-- `UniqueValidator.validate`: missing column returns `False`;
otherwise fail iff the column has a duplicated value (pandas counts
repeated `NaN` as duplicates, matching equality on `Option ℚ`). -/
def UniqueValidator.validate (v : UniqueValidator) (df : Frame) : Bool :=
  v.columns.all fun col =>
    match getCol? df col with
    | none => false
    | some c => decide c.Nodup

/-- One check record of `StatisticalValidator`. -/
structure StatCheck where
  column : String
  type : String
  min_value : Option ℚ := none
  max_value : Option ℚ := none

/-- `StatisticalValidator` of `validators/advanced.py`. -/
structure StatisticalValidator where
  checks : List StatCheck

/-- `Series.mean()` with `skipna`: `NaN` on an all-missing column. -/
def seriesMean (c : Column) : Cell :=
  let v := cellVals c
  if v.length = 0 then none else some (v.sum / (v.length : ℚ))

/-- `Series.median()` with `skipna`. -/
def seriesMedian (c : Column) : Cell :=
  let v := (cellVals c).insertionSort (· ≤ ·)
  if v.length = 0 then none
  else if v.length % 2 = 1 then some (v.getD (v.length / 2) 0)
  else some ((v.getD (v.length / 2 - 1) 0 + v.getD (v.length / 2) 0) / 2)

/-- The `value = data[column].<stat>()` dispatch inside
`StatisticalValidator.validate`.  Every recognised branch subscripts
`data[column]` first, so an absent column raises `KeyError` rather than
returning false; an unrecognised check type leaves `value` unbound and
raises.  `std` and `skew` need irrational arithmetic and are outside
this rational model: only their raising-on-missing-column behaviour is
represented. -/
def statValue (df : Frame) (ch : StatCheck) : Except String Cell :=
  if ch.type = "mean" then do
    let c ← getCol df ch.column
    pure (seriesMean c)
  else if ch.type = "std" then do
    let _ ← getCol df ch.column
    .error "std outside rational model"
  else if ch.type = "median" then do
    let c ← getCol df ch.column
    pure (seriesMedian c)
  else if ch.type = "skew" then do
    let _ ← getCol df ch.column
    .error "skew outside rational model"
  else .error "UnboundLocalError: value"

/-- `value < min_value or value > max_value` with `NaN` comparing false
(the check passes). -/
def statCheckFailed (ch : StatCheck) (value : Cell) : Bool :=
  match value with
  | none => false
  | some x =>
    (match ch.min_value with
     | some m => decide (x < m)
     | none => false) ||
    (match ch.max_value with
     | some m => decide (m < x)
     | none => false)

/-- The `for check in self.checks` loop of
`StatisticalValidator.validate`: first failing check returns `False`,
otherwise `True`; any raised error propagates. -/
def runStatChecks (df : Frame) : List StatCheck → Except String Bool
  | [] => .ok true
  | ch :: rest => do
    let v ← statValue df ch
    if statCheckFailed ch v then pure false else runStatChecks df rest

/-- `StatisticalValidator.validate`. -/
def StatisticalValidator.validate (v : StatisticalValidator) (df : Frame) :
    Except String Bool :=
  runStatChecks df v.checks

/-! ### Concrete fixtures used by witnesses and counterexamples. -/

/-- A validator passing every table. -/
def vPass : DValidator Nat := { name := "V1", validate := fun _ => true }

/-- A validator rejecting every table. -/
def vFail : DValidator Nat := { name := "V2", validate := fun _ => false }

/-- A row-local validator: every row below 100. -/
def vSmall : DValidator Nat :=
  { name := "SmallRowsValidator", validate := fun rows => rows.all (· < 100) }

/-- A validator rejecting any chunk containing the row 3. -/
def vNoThree : DValidator Nat :=
  { name := "NoThreeValidator", validate := fun rows => ! rows.contains 3 }

/-- A row-wise transformer adding one to every row. -/
def tInc : DTransformer Nat :=
  { name := "IncTransformer", transform := fun rows => .ok (rows.map (· + 1)) }

/-- A transformer that always raises. -/
def tBoom : DTransformer Nat :=
  { name := "BoomTransformer", transform := fun _ => .error "KeyError: missing" }

/-- A sequential pipeline with no registered stages. -/
def seqEmptyStages : Pipeline Nat := { name := "seq" }

/-- A parallel pipeline with no registered stages. -/
def parEmptyStages : ParallelPipeline Nat := { name := "par", n_jobs := 4 }

/-- Parallel pipeline fixture for the refinement witness. -/
def parC1 : ParallelPipeline Nat :=
  { name := "c1", validators := [vSmall], transformers := [tInc], n_jobs := 2 }

/-- Sequential pipeline fixture with a passing then a failing validator. -/
def pipeC2 : Pipeline Nat :=
  { name := "c2", validators := [vPass, vFail], transformers := [tInc] }

/-- Sequential pipeline fixture whose second transformer raises. -/
def pipeC3 : Pipeline Nat :=
  { name := "c3", validators := [vPass], transformers := [tInc, tBoom] }

/-- Parallel pipeline fixture with four workers and no stages. -/
def parC4 : ParallelPipeline Nat := { name := "c4", n_jobs := 4 }

/-- Parallel pipeline fixture whose validator rejects chunks holding 3. -/
def parC5 : ParallelPipeline Nat :=
  { name := "c5", validators := [vNoThree], n_jobs := 2 }

/-- Empty-stage pipeline fixture with a prior run count. -/
def pipeC8 : Pipeline Nat := { name := "c8", runs := 41 }

/-- Parallel pipeline fixture with stages registered. -/
def parC10 : ParallelPipeline Nat :=
  { name := "c10", validators := [vPass], transformers := [tInc], n_jobs := 3 }

/-- The scenario frame `{id: [1..5], value: [10,20,30,40,50]}`. -/
def frameC6 : Frame :=
  [("id", [some 1, some 2, some 3, some 4, some 5]),
   ("value", [some 10, some 20, some 30, some 40, some 50])]

/-- The window-mean operation of the scenario: window 2 over `value`. -/
def winOp : FeatOp :=
  { type := "window", columns := ["value"], operation := "mean",
    window := some 2, new_column := "value_mean" }

/-- An operation descriptor with an unrecognised tag. -/
def bogusOp : FeatOp :=
  { type := "bogus", columns := ["value"], operation := "mean",
    new_column := "x" }

/-- A mean check on column `x`. -/
def statMeanCheckX : StatCheck := { column := "x", type := "mean", min_value := some 0 }

/-- A statistical validator configured against column `x`. -/
def statValX : StatisticalValidator := { checks := [statMeanCheckX] }

/-- A frame without column `x`. -/
def frameNoX : Frame := [("y", [some 1, some 2])]

/-! ### Chunking lemmas -/

/-- Slicing an empty table produces no chunks (`range(0, 0, cs)` is empty). -/
theorem chunkList_nil (cs : Nat) {α : Type} : chunkList cs ([] : List α) = [] := by
  unfold chunkList
  have h : (List.length ([] : List α) + cs - 1) / cs = 0 := by
    rcases Nat.eq_zero_or_pos cs with h0 | h0
    · subst h0; simp
    · simp only [List.length_nil]
      exact Nat.div_eq_of_lt (by omega)
  rw [h]
  rfl

/-- For a positive chunk size and a nonempty table, the chunk list is the
first `cs` rows followed by the chunks of the rest. -/
theorem chunkList_cons {α : Type} (cs : Nat) (hcs : 0 < cs) (xs : List α)
    (hxs : xs ≠ []) :
    chunkList cs xs = xs.take cs :: chunkList cs (xs.drop cs) := by
  have hL : 0 < xs.length := List.length_pos.mpr hxs
  unfold chunkList
  rw [List.length_drop]
  have hcount : (xs.length + cs - 1) / cs = (xs.length - cs + cs - 1) / cs + 1 := by
    rcases Nat.le_total xs.length cs with h | h
    · have h1 : xs.length - cs = 0 := Nat.sub_eq_zero_of_le h
      rw [h1]
      have e1 : xs.length + cs - 1 = (xs.length - 1) + cs := by omega
      rw [e1, Nat.add_div_right _ hcs]
      have e2 : (xs.length - 1) / cs = 0 := Nat.div_eq_of_lt (by omega)
      have e3 : (0 + cs - 1) / cs = 0 := Nat.div_eq_of_lt (by omega)
      rw [e2, e3]
    · have e1 : xs.length + cs - 1 = (xs.length - cs + cs - 1) + cs := by omega
      rw [e1, Nat.add_div_right _ hcs]
  rw [hcount, List.range_succ_eq_map, List.map_cons]
  congr 1
  · simp
  · rw [List.map_map]
    apply List.map_congr_left
    intro i _
    simp only [Function.comp_apply]
    rw [List.drop_drop]
    congr 2
    rw [Nat.succ_mul]
    omega

/-- The chunks concatenate back to the source table: the partition is
contiguous, non-overlapping, covers every row and preserves row order. -/
theorem chunkList_flatten {α : Type} (cs : Nat) (hcs : 0 < cs) (xs : List α) :
    (chunkList cs xs).flatten = xs := by
  suffices H : ∀ n (ys : List α), ys.length ≤ n → (chunkList cs ys).flatten = ys by
    exact H xs.length xs le_rfl
  intro n
  induction n with
  | zero =>
    intro ys hy
    have : ys = [] := List.eq_nil_of_length_eq_zero (Nat.le_zero.mp hy)
    subst this
    rw [chunkList_nil]
    rfl
  | succ n ih =>
    intro ys hy
    by_cases hys : ys = []
    · subst hys
      rw [chunkList_nil]
      rfl
    · rw [chunkList_cons cs hcs ys hys, List.flatten_cons,
        ih (ys.drop cs) (by rw [List.length_drop]; omega)]
      exact List.take_append_drop cs ys

/-- Every chunk has at most `cs` rows. -/
theorem chunkList_mem_length_le {α : Type} {cs : Nat} {xs : List α}
    {c : List α} (hc : c ∈ chunkList cs xs) : c.length ≤ cs := by
  unfold chunkList at hc
  rcases List.mem_map.mp hc with ⟨i, _, rfl⟩
  exact List.length_take_le cs _

/-- For a positive chunk size, every produced chunk is nonempty. -/
theorem chunkList_mem_ne_nil {α : Type} {cs : Nat} (hcs : 0 < cs)
    {xs : List α} {c : List α} (hc : c ∈ chunkList cs xs) : c ≠ [] := by
  unfold chunkList at hc
  rcases List.mem_map.mp hc with ⟨i, hi, rfl⟩
  have hi1 : i < (xs.length + cs - 1) / cs := List.mem_range.mp hi
  have h3 : (i + 1) * cs ≤ ((xs.length + cs - 1) / cs) * cs :=
    Nat.mul_le_mul_right cs hi1
  have h4 : ((xs.length + cs - 1) / cs) * cs ≤ xs.length + cs - 1 :=
    Nat.div_mul_le_self _ _
  have h5 : i * cs + cs ≤ xs.length + cs - 1 := by
    have e : (i + 1) * cs = i * cs + cs := by ring
    omega
  have hlt : i * cs < xs.length := by omega
  have hlen : ((xs.drop (i * cs)).take cs).length = min cs (xs.length - i * cs) := by
    rw [List.length_take, List.length_drop]
  intro hnil
  rw [hnil] at hlen
  simp only [List.length_nil] at hlen
  omega

/-- Every chunk except possibly the last has exactly `cs` rows. -/
theorem chunkList_dropLast_length {α : Type} {cs : Nat} (hcs : 0 < cs)
    {xs : List α} {c : List α} (hc : c ∈ (chunkList cs xs).dropLast) :
    c.length = cs := by
  unfold chunkList at hc
  rcases hn : (xs.length + cs - 1) / cs with _ | m
  · rw [hn] at hc
    simp at hc
  · rw [hn, List.range_succ, List.map_append] at hc
    simp only [List.map_cons, List.map_nil] at hc
    rw [List.dropLast_concat] at hc
    rcases List.mem_map.mp hc with ⟨i, hi, rfl⟩
    have him : i < m := List.mem_range.mp hi
    have h2 : (i + 2) ≤ m + 1 := by omega
    have h3 : (i + 2) * cs ≤ (m + 1) * cs := Nat.mul_le_mul_right cs h2
    have h4 : (m + 1) * cs ≤ xs.length + cs - 1 := by
      rw [← hn]
      exact Nat.div_mul_le_self _ _
    have h5 : i * cs + cs ≤ xs.length := by
      have e : (i + 2) * cs = i * cs + cs + cs := by ring
      omega
    rw [List.length_take, List.length_drop]
    omega

/-- A nonempty table no longer than the chunk size yields exactly one
chunk, the whole table. -/
theorem chunkList_eq_singleton {α : Type} {cs : Nat} (hcs : 0 < cs)
    {xs : List α} (hxs : xs ≠ []) (hle : xs.length ≤ cs) :
    chunkList cs xs = [xs] := by
  rw [chunkList_cons cs hcs xs hxs]
  have hd : xs.drop cs = [] := List.drop_eq_nil_of_le hle
  rw [hd, chunkList_nil]
  congr 1
  exact List.take_of_length_le hle

/-! ### Engine lemmas -/

/-- Validation succeeds exactly when every registered validator accepts. -/
theorem runValidators_eq_none_iff {α : Type} (vs : List (DValidator α))
    (data : List α) :
    runValidators vs data = none ↔ ∀ v ∈ vs, v.validate data = true := by
  induction vs with
  | nil => simp [runValidators]
  | cons v rest ih =>
    by_cases h : v.validate data = true
    · rw [show runValidators (v :: rest) data = runValidators rest data by
        simp [runValidators, h], ih]
      constructor
      · intro hall u hu
        rcases List.mem_cons.mp hu with rfl | hu
        · exact h
        · exact hall u hu
      · intro hall u hu
        exact hall u (List.mem_cons_of_mem v hu)
    · rw [show runValidators (v :: rest) data
          = some (.validationFailed v.name) by simp [runValidators, h]]
      constructor
      · intro hc
        cases hc
      · intro hall
        exact absurd (hall v (List.mem_cons_self v rest)) h

/-- A prefix of transformers that succeeds followed by a raising
transformer makes the whole transformer fold fail with an error naming
that transformer, independently of what comes after it. -/
theorem runTransformers_prefix_ok_then_error {α : Type}
    (ts1 ts2 : List (DTransformer α)) (t : DTransformer α)
    (data mid : List α) (msg : String)
    (hok : runTransformers ts1 data = .ok mid)
    (herr : t.transform mid = .error msg) :
    runTransformers (ts1 ++ t :: ts2) data =
      .error (.transformFailed t.name msg) := by
  induction ts1 generalizing data with
  | nil =>
    simp only [runTransformers] at hok
    cases hok
    simp [runTransformers, herr]
  | cons u us ih =>
    simp only [runTransformers, List.cons_append] at hok ⊢
    cases hu : u.transform data with
    | error m => rw [hu] at hok; cases hok
    | ok d =>
      rw [hu] at hok
      exact ih d hok

/-- The chunk fold surfaces the error of the earliest failing chunk when
every chunk before it succeeds. -/
theorem processChunks_first_error {α : Type} (p : Pipeline α)
    (pre post : List (List α)) (bad : List α) (e : PipeError)
    (hpre : ∀ c ∈ pre, ∃ r, processChunk p c = .ok r)
    (hbad : processChunk p bad = .error e) :
    processChunks p (pre ++ bad :: post) = .error e := by
  induction pre with
  | nil => simp [processChunks, hbad]
  | cons c rest ih =>
    obtain ⟨r, hr⟩ := hpre c (List.mem_cons_self c rest)
    have hrest : ∀ d ∈ rest, ∃ r, processChunk p d = .ok r := by
      intro d hd
      exact hpre d (List.mem_cons_of_mem c hd)
    have hih := ih hrest
    simp only [List.cons_append, processChunks, hr, List.append_eq, hih]

/-! ### Claim theorems -/

/-- C2: with registered validators `V1 :: V2 :: rest` where `V1` accepts
the table and `V2` rejects it, `Pipeline.process` fails with a
validation error naming `V2`; the result does not depend on the
validators after `V2` nor on the registered transformers (so none of
them is invoked), no output table is produced, and the returned pipeline
state — in particular `runs` and `last_run` — is exactly the input
state. -/
theorem process_fail_fast_names_second_validator {α : Type}
    (p : Pipeline α) (v1 v2 : DValidator α) (rest : List (DValidator α))
    (now : Nat) (data : List α)
    (hvs : p.validators = v1 :: v2 :: rest)
    (h1 : v1.validate data = true) (h2 : v2.validate data = false) :
    p.process now data = (p, .error (.validationFailed v2.name)) := by
  unfold Pipeline.process
  rw [hvs]
  simp [runValidators, h1, h2]

/-- Witness for C2 at a concrete pipeline, table and clock. -/
theorem process_fail_fast_names_second_validator_witness :
    pipeC2.process 7 [1, 2] = (pipeC2, .error (.validationFailed "V2")) :=
  process_fail_fast_names_second_validator pipeC2 vPass vFail [] 7 [1, 2]
    rfl rfl rfl

/-- C3: if the table passes every registered validator and the
registered transformers are a succeeding prefix followed by a raising
transformer `t`, then `Pipeline.process` aborts: the propagated error
carries `t`'s identity (as the Python traceback of the uncaught
exception does), no partial table is returned, and the returned pipeline
state — `last_run` and `runs` — is exactly the input state. -/
theorem process_transformer_error_aborts_without_metadata {α : Type}
    (p : Pipeline α) (now : Nat) (data mid : List α)
    (ts1 ts2 : List (DTransformer α)) (t : DTransformer α) (msg : String)
    (hval : ∀ v ∈ p.validators, v.validate data = true)
    (hts : p.transformers = ts1 ++ t :: ts2)
    (hok : runTransformers ts1 data = .ok mid)
    (herr : t.transform mid = .error msg) :
    p.process now data = (p, .error (.transformFailed t.name msg)) := by
  unfold Pipeline.process
  rw [(runValidators_eq_none_iff p.validators data).mpr hval, hts,
    runTransformers_prefix_ok_then_error ts1 ts2 t data mid msg hok herr]

/-- Witness for C3: `pipeC3` has transformers `[tInc, tBoom]`; on
`[1, 2]` the first succeeds and the second raises. -/
theorem process_transformer_error_aborts_without_metadata_witness :
    pipeC3.process 9 [1, 2] =
      (pipeC3, .error (.transformFailed "BoomTransformer" "KeyError: missing")) :=
  process_transformer_error_aborts_without_metadata pipeC3 9 [1, 2] [2, 3]
    [tInc] [] tBoom "KeyError: missing"
    (by intro v hv; simp [pipeC3] at hv; subst hv; rfl)
    rfl rfl rfl

/-- C8: a pipeline with no registered validators and no registered
transformers returns the input table unchanged (the engine only ever
consumes a copy, so the caller's table is untouched), sets `last_run`
and increments `runs` by exactly one. -/
theorem process_empty_stages_is_identity {α : Type}
    (p : Pipeline α) (now : Nat) (data : List α)
    (hv : p.validators = []) (ht : p.transformers = []) :
    p.process now data =
      ({ p with last_run := some now, runs := p.runs + 1 }, .ok data) := by
  unfold Pipeline.process
  rw [hv, ht]
  rfl

/-- Witness for C8 at a concrete pipeline with prior run count 41. -/
theorem process_empty_stages_is_identity_witness :
    pipeC8.process 13 [5, 6, 7] =
      ({ pipeC8 with last_run := some 13, runs := 42 }, .ok [5, 6, 7]) :=
  process_empty_stages_is_identity pipeC8 13 [5, 6, 7] rfl rfl

/-- C4: with no explicit `chunk_size`, the resolved chunk size is
`max(1000, N // (workers * 4))`; the produced chunks concatenate back to
the table in original row order (contiguous, non-overlapping, covering),
every chunk except possibly the last has exactly `chunk_size` rows,
every chunk has at most `chunk_size` rows and is nonempty; and for a
100-row table with 4 workers the floor of 1000 applies and exactly one
chunk — the whole table — is produced. -/
theorem parallel_chunking_properties {α : Type}
    (p : ParallelPipeline α) (data : List α) :
    resolvedChunkSize p.n_jobs data.length none
        = max 1000 (data.length / (p.n_jobs * 4)) ∧
    (chunkList (resolvedChunkSize p.n_jobs data.length none) data).flatten
        = data ∧
    (∀ c ∈ (chunkList (resolvedChunkSize p.n_jobs data.length none) data).dropLast,
        c.length = resolvedChunkSize p.n_jobs data.length none) ∧
    (∀ c ∈ chunkList (resolvedChunkSize p.n_jobs data.length none) data,
        c.length ≤ resolvedChunkSize p.n_jobs data.length none ∧ c ≠ []) ∧
    (data.length = 100 → p.n_jobs = 4 →
        chunkList (resolvedChunkSize p.n_jobs data.length none) data = [data]) := by
  have h1000 : (1000 : Nat) ≤ resolvedChunkSize p.n_jobs data.length none :=
    le_max_right _ _
  have hpos : 0 < resolvedChunkSize p.n_jobs data.length none := by omega
  refine ⟨?_, ?_, ?_, ?_, ?_⟩
  · unfold resolvedChunkSize
    exact Nat.max_comm _ _
  · exact chunkList_flatten _ hpos data
  · intro c hc
    exact chunkList_dropLast_length hpos hc
  · intro c hc
    exact ⟨chunkList_mem_length_le hc, chunkList_mem_ne_nil hpos hc⟩
  · intro hlen hjobs
    have hsz : resolvedChunkSize p.n_jobs data.length none = 1000 := by
      rw [hlen, hjobs]
      decide
    rw [hsz]
    apply chunkList_eq_singleton (by omega)
    · intro hnil
      rw [hnil] at hlen
      simp at hlen
    · omega

/-- Witness for C4: four workers, a concrete 100-row table, exactly one
chunk. -/
theorem parallel_chunking_properties_witness :
    chunkList (resolvedChunkSize parC4.n_jobs (List.range 100).length none)
        (List.range 100) = [List.range 100] :=
  (parallel_chunking_properties parC4 (List.range 100)).2.2.2.2 rfl rfl

/-- C10: on a zero-row table the chunk comprehension produces no chunks,
so `pd.concat` of the empty result list raises and
`ParallelPipeline.process` fails with its state unchanged, whatever
validators and transformers are registered; with none registered, the
sequential `Pipeline.process` on the same zero-row table still succeeds
and returns the empty table, so the empty-pipeline identity property
does not extend to `ParallelPipeline`.  (A supplied chunk size of 0
raises a different error, `range()` step zero, before chunking and is
outside this model.) -/
theorem parallel_process_zero_rows_raises {α : Type}
    (p : ParallelPipeline α) (now : Nat) (chunk_size : Option Nat)
    (hcs : chunk_size ≠ some 0) :
    p.process now [] chunk_size = (p, .error .emptyConcat) ∧
    (p.validators = [] → p.transformers = [] →
      (p.toPipeline.process now []).2 = .ok []) := by
  constructor
  · unfold ParallelPipeline.process
    simp only [chunkList_nil]
    rfl
  · intro hv ht
    unfold Pipeline.process
    rw [hv, ht]
    rfl

/-- Witness for C10 at a concrete parallel pipeline with stages. -/
theorem parallel_process_zero_rows_raises_witness :
    parC10.process 3 [] none = (parC10, .error .emptyConcat) :=
  (parallel_process_zero_rows_raises parC10 3 none (by simp)).1

/-! ### Refinement between parallel and sequential processing -/

/-- A chunk-local validator that accepts a concatenation accepts every
part. -/
theorem validator_chunkLocal_flatten {α : Type} {v : DValidator α}
    (h : ValidatorChunkLocal v) (chunks : List (List α))
    (htrue : v.validate chunks.flatten = true) :
    ∀ c ∈ chunks, v.validate c = true := by
  induction chunks with
  | nil => simp
  | cons c rest ih =>
    rw [List.flatten_cons, h c rest.flatten, Bool.and_eq_true] at htrue
    obtain ⟨h1, h2⟩ := htrue
    intro d hd
    rcases List.mem_cons.mp hd with rfl | hd
    · exact h1
    · exact ih h2 d hd

/-- A chunk-local transformer fold that succeeds on a concatenation
succeeds on both parts and concatenates their outputs. -/
theorem runTransformers_append_ok {α : Type} {ts : List (DTransformer α)}
    (hT : ∀ t ∈ ts, TransformerChunkLocal t) (a b out : List α)
    (h : runTransformers ts (a ++ b) = .ok out) :
    ∃ oa ob, runTransformers ts a = .ok oa ∧ runTransformers ts b = .ok ob ∧
      out = oa ++ ob := by
  induction ts generalizing a b out with
  | nil =>
    simp only [runTransformers] at h
    cases h
    exact ⟨a, b, rfl, rfl, rfl⟩
  | cons t rest ih =>
    have ht := hT t (List.mem_cons_self t rest)
    have hrest : ∀ u ∈ rest, TransformerChunkLocal u := fun u hu =>
      hT u (List.mem_cons_of_mem t hu)
    simp only [runTransformers] at h
    rw [ht a b] at h
    cases hta : t.transform a with
    | error e =>
      rw [hta] at h
      simp at h
    | ok ra =>
      rw [hta] at h
      cases htb : t.transform b with
      | error e =>
        rw [htb] at h
        simp at h
      | ok rb =>
        rw [htb] at h
        simp only at h
        obtain ⟨oa, ob, h1, h2, h3⟩ := ih hrest ra rb out h
        refine ⟨oa, ob, ?_, ?_, h3⟩
        · simp only [runTransformers, hta, h1]
        · simp only [runTransformers, htb, h2]

/-- If the whole-table run of a pipeline with chunk-local stages
succeeds, every chunk of any decomposition of the table runs
successfully and the per-chunk outputs concatenate to the whole-table
output. -/
theorem processChunks_ok_of_whole {α : Type} {p : Pipeline α}
    (hV : ∀ v ∈ p.validators, ValidatorChunkLocal v)
    (hT : ∀ t ∈ p.transformers, TransformerChunkLocal t) :
    ∀ (chunks : List (List α)) (out : List α), chunks ≠ [] →
      runValidators p.validators chunks.flatten = none →
      runTransformers p.transformers chunks.flatten = .ok out →
      ∃ results, processChunks p chunks = .ok results ∧ results ≠ [] ∧
        results.flatten = out := by
  intro chunks
  induction chunks with
  | nil =>
    intro out h
    exact absurd rfl h
  | cons c rest ih =>
    intro out _ hval htr
    by_cases hrest : rest = []
    · subst hrest
      have hc2 : runValidators p.validators c = none := by
        rw [runValidators_eq_none_iff] at hval ⊢
        intro v hv
        have := hval v hv
        simpa using this
      have htr2 : runTransformers p.transformers c = .ok out := by
        simpa using htr
      refine ⟨[out], ?_, by simp, by simp⟩
      simp only [processChunks, processChunk, hc2, htr2]
    · rw [List.flatten_cons] at hval htr
      have hvc : runValidators p.validators c = none := by
        rw [runValidators_eq_none_iff] at hval ⊢
        intro v hv
        have := hval v hv
        rw [hV v hv c rest.flatten, Bool.and_eq_true] at this
        exact this.1
      have hvrest : runValidators p.validators rest.flatten = none := by
        rw [runValidators_eq_none_iff] at hval ⊢
        intro v hv
        have := hval v hv
        rw [hV v hv c rest.flatten, Bool.and_eq_true] at this
        exact this.2
      obtain ⟨oc, orest, h1, h2, h3⟩ :=
        runTransformers_append_ok hT c rest.flatten out htr
      obtain ⟨results, hres, _, hflatres⟩ := ih orest hrest hvrest h2
      refine ⟨oc :: results, ?_, by simp, ?_⟩
      · simp only [processChunks, processChunk, hvc, h1, hres]
      · rw [List.flatten_cons, hflatres]
        exact h3.symm

/-! ### Claim theorems, continued -/

/-- C1 counterexample: on the zero-row table, with no registered stages
at all (so every registered stage is vacuously stateless and
chunk-order-independent), `Pipeline.process` succeeds and returns the
empty table while `ParallelPipeline.process` raises (`pd.concat` of an
empty chunk list), so the parallel result is not row-equal to the
sequential one. -/
theorem parallel_seq_equivalence_fails_on_empty_table :
    (seqEmptyStages.process 0 []).2 = .ok [] ∧
    (parEmptyStages.process 0 [] none).2 = .error .emptyConcat := by
  exact ⟨rfl, rfl⟩

/-- C1 (amended): for a **nonempty** table, a positive (or defaulted)
chunk size, and registered stages that are chunk-local (the
formalisation of stateless and chunk-order-independent used here:
validators conjunctive over row-block concatenation, transformers
homomorphic over it), whenever the sequential `Pipeline.process`
succeeds with output `out`, `ParallelPipeline.process` succeeds with the
same output in the same row order. -/
theorem parallel_refines_sequential {α : Type} (p : ParallelPipeline α)
    (now : Nat) (data : List α) (chunk_size : Option Nat) (out : List α)
    (hdata : data ≠ [])
    (hcs : ∀ c, chunk_size = some c → 0 < c)
    (hV : ∀ v ∈ p.validators, ValidatorChunkLocal v)
    (hT : ∀ t ∈ p.transformers, TransformerChunkLocal t)
    (hseq : (p.toPipeline.process now data).2 = .ok out) :
    (p.process now data chunk_size).2 = .ok out := by
  have key : runValidators p.validators data = none ∧
      runTransformers p.transformers data = .ok out := by
    unfold Pipeline.process at hseq
    cases hv : runValidators p.validators data with
    | some e =>
      rw [hv] at hseq
      simp at hseq
    | none =>
      rw [hv] at hseq
      cases ht : runTransformers p.transformers data with
      | error e =>
        rw [ht] at hseq
        simp at hseq
      | ok o =>
        rw [ht] at hseq
        simp only at hseq
        cases hseq
        exact ⟨rfl, rfl⟩
  have hcspos : 0 < resolvedChunkSize p.n_jobs data.length chunk_size := by
    cases chunk_size with
    | some c => exact hcs c rfl
    | none =>
      have h1000 : (1000 : Nat) ≤
          resolvedChunkSize p.n_jobs data.length none := le_max_right _ _
      omega
  have hflat : (chunkList (resolvedChunkSize p.n_jobs data.length chunk_size)
      data).flatten = data := chunkList_flatten _ hcspos data
  have hchne : chunkList (resolvedChunkSize p.n_jobs data.length chunk_size)
      data ≠ [] := by
    intro h0
    rw [h0] at hflat
    exact hdata hflat.symm
  obtain ⟨results, hres, hresne, hresflat⟩ :=
    processChunks_ok_of_whole hV hT
      (chunkList (resolvedChunkSize p.n_jobs data.length chunk_size) data)
      out hchne (by rw [hflat]; exact key.1) (by rw [hflat]; exact key.2)
  unfold ParallelPipeline.process
  simp only [hres]
  cases results with
  | nil => exact absurd rfl hresne
  | cons r rs =>
    simp only [List.isEmpty_cons, Bool.false_eq_true, if_false]
    rw [← hresflat]

/-- C1 witness: a parallel pipeline with a row-local validator and a
row-wise transformer on a nonempty table, explicit chunk size 2. -/
theorem parallel_refines_sequential_witness :
    (parC1.process 5 [1, 2, 3] (some 2)).2 = .ok [2, 3, 4] :=
  parallel_refines_sequential parC1 5 [1, 2, 3] (some 2) [2, 3, 4]
    (by decide)
    (by intro c hc; cases hc; decide)
    (by
      intro v hv
      have hv2 : v = vSmall := by simpa [parC1] using hv
      subst hv2
      intro a b
      simp [vSmall, List.all_append])
    (by
      intro t ht
      have ht2 : t = tInc := by simpa [parC1] using ht
      subst ht2
      intro a b
      simp [tInc, List.map_append])
    (by rfl)

/-- C5 counterexample: two runs of the same parallel pipeline in which a
different chunk fails (the second chunk, index 1, in the first run; the
first chunk, index 0, in the second run) surface **identical** error
values, so the surfaced error cannot identify the failing chunk's index,
contrary to the claim. -/
theorem parallel_error_omits_chunk_index :
    chunkList 2 [1, 2, 3] = [[1, 2], [3]] ∧
    chunkList 2 [3, 1, 2] = [[3, 1], [2]] ∧
    processChunk parC5.toPipeline [1, 2] = .ok [1, 2] ∧
    processChunk parC5.toPipeline [3] =
      .error (.validationFailed "NoThreeValidator") ∧
    processChunk parC5.toPipeline [3, 1] =
      .error (.validationFailed "NoThreeValidator") ∧
    (parC5.process 0 [1, 2, 3] (some 2)).2 =
      (parC5.process 0 [3, 1, 2] (some 2)).2 := by
  exact ⟨rfl, rfl, rfl, rfl, rfl, rfl⟩

/-- C5 (amended): when the chunks decompose as a succeeding prefix, a
failing chunk and an arbitrary tail, `ParallelPipeline.process` aborts
with exactly the first failing chunk's error — which identifies the
failing stage through its constructor (validator name, or transformer
identity and message) but carries no chunk index — no merged table is
produced and the returned pipeline state is unchanged. -/
theorem parallel_first_failing_chunk_error_surfaced {α : Type}
    (p : ParallelPipeline α) (now : Nat) (data : List α)
    (chunk_size : Option Nat) (pre post : List (List α)) (bad : List α)
    (e : PipeError)
    (hchunks : chunkList (resolvedChunkSize p.n_jobs data.length chunk_size)
        data = pre ++ bad :: post)
    (hpre : ∀ c ∈ pre, ∃ r, processChunk p.toPipeline c = .ok r)
    (hbad : processChunk p.toPipeline bad = .error e) :
    p.process now data chunk_size = (p, .error e) := by
  unfold ParallelPipeline.process
  simp only [hchunks,
    processChunks_first_error p.toPipeline pre post bad e hpre hbad]

/-- C5 witness: the first run of the counterexample fixture, decomposed
as succeeding prefix `[[1, 2]]` and failing chunk `[3]`. -/
theorem parallel_first_failing_chunk_error_surfaced_witness :
    parC5.process 0 [1, 2, 3] (some 2) =
      (parC5, .error (.validationFailed "NoThreeValidator")) :=
  parallel_first_failing_chunk_error_surfaced parC5 0 [1, 2, 3] (some 2)
    [[1, 2]] [] [3] (.validationFailed "NoThreeValidator")
    rfl
    (by
      intro c hc
      have hc2 : c = [1, 2] := by simpa using hc
      subst hc2
      exact ⟨[1, 2], rfl⟩)
    rfl

/-! ### Feature-operation interpreter and shipped-validator claims -/

/-- Mapping `some` over values and dropping the missing cells is the
identity: a column built from plain values has no `NaN`. -/
theorem cellVals_map_some (l : List ℚ) : cellVals (l.map some) = l := by
  induction l with
  | nil => rfl
  | cons x xs ih => simp_all [cellVals]

/-- The window-2 rolling mean of the scenario column, evaluated. -/
theorem rollingMean_scenario :
    rollingMean 2 [some 10, some 20, some 30, some 40, some 50] =
      [none, some 15, some 25, some 35, some 45] := by
  norm_num [rollingMean, rollingVals, cellVals, List.range_succ,
    List.filterMap_cons, List.sum_cons]

/-- The interpreter on the scenario frame reduces to appending the
rolling-mean column. -/
theorem featureTransform_scenario :
    featureTransform [winOp] frameC6 =
      .ok [("id", [some 1, some 2, some 3, some 4, some 5]),
           ("value", [some 10, some 20, some 30, some 40, some 50]),
           ("value_mean", [none, some 15, some 25, some 35, some 45])] := by
  calc featureTransform [winOp] frameC6
      = .ok (setCol frameC6 "value_mean"
          (rollingMean 2 [some 10, some 20, some 30, some 40, some 50])) := rfl
    _ = _ := by
      rw [rollingMean_scenario]
      rfl

/-- C6 counterexample: on the scenario frame, the window-2 mean over
`value` yields `[NaN, 15, 25, 35, 45]` — pandas' default
`min_periods = window` leaves the first `window - 1` rows missing — and
that column differs from the `[10, 15, 25, 35, 45]` the claim asserts. -/
theorem window_mean_partial_rows_counterexample :
    featureTransform [winOp] frameC6 =
      .ok [("id", [some 1, some 2, some 3, some 4, some 5]),
           ("value", [some 10, some 20, some 30, some 40, some 50]),
           ("value_mean", [none, some 15, some 25, some 35, some 45])] ∧
    ([none, some 15, some 25, some 35, some 45] : Column) ≠
      [some 10, some 15, some 25, some 35, some 45] := by
  constructor
  · exact featureTransform_scenario
  · intro h
    have h0 : (none : Cell) = some 10 := by
      injection h
    cases h0

/-- C6 (amended): a window operation computes a rolling aggregate with
the pandas default `min_periods = window`: for a fully populated input
column, every output row `i` with `i + 1 < window` is missing (`NaN`),
not a partial-window value, and every row with a full window holds the
mean of the last `window` values; on the scenario frame the produced
column is `[NaN, 15, 25, 35, 45]`. -/
theorem window_rolling_uses_full_window_min_periods
    (w : Nat) (xs : List ℚ) (hw : 1 ≤ w) :
    (∀ i, i < xs.length →
      (rollingMean w (xs.map some)).get? i =
        some (if i + 1 < w then none
              else some (((xs.take (i + 1)).drop (i + 1 - w)).sum / (w : ℚ)))) ∧
    featureTransform [winOp] frameC6 =
      .ok [("id", [some 1, some 2, some 3, some 4, some 5]),
           ("value", [some 10, some 20, some 30, some 40, some 50]),
           ("value_mean", [none, some 15, some 25, some 35, some 45])] := by
  constructor
  · intro i hi
    unfold rollingMean
    rw [List.get?_map, List.length_map, List.get?_range hi]
    have hvals : rollingVals (xs.map some) w i
        = (xs.take (i + 1)).drop (i + 1 - w) := by
      unfold rollingVals
      rw [← List.map_take, ← List.map_drop, cellVals_map_some]
    have hlen : ((xs.take (i + 1)).drop (i + 1 - w)).length
        = (i + 1) - (i + 1 - w) := by
      rw [List.length_drop, List.length_take, Nat.min_eq_left (by omega)]
    simp only [Option.map_some', hvals]
    by_cases hcase : i + 1 < w
    · rw [if_pos hcase, if_pos (by omega)]
    · rw [if_neg hcase, if_neg (by omega)]
  · exact featureTransform_scenario

/-- C6 witness: window 2 over the scenario values, first output row is
missing. -/
theorem window_rolling_uses_full_window_min_periods_witness :
    (rollingMean 2 (([10, 20, 30, 40, 50] : List ℚ).map some)).get? 0 =
      some none := by
  have h := (window_rolling_uses_full_window_min_periods 2
    [10, 20, 30, 40, 50] (by norm_num)).1 0 (by norm_num)
  rw [if_pos (by norm_num : (0 : Nat) + 1 < 2)] at h
  exact h

/-- C7 counterexample: an operation descriptor with the unrecognised tag
`bogus` is applied at first use without any error: the interpreter
returns the frame unchanged, so the unknown tag is silently ignored
rather than raising a configuration error (and the transformer's
constructor stores the operation list without inspecting it, so nothing
is raised at registration either). -/
theorem unknown_feature_op_tag_counterexample :
    featureTransform [bogusOp] frameC6 = .ok frameC6 := by
  rfl

/-- C7 (amended): an operation whose tag is none of `arithmetic`,
`window`, `interaction` falls through the `if`/`elif` chain, which has
no `else`: the operation is silently ignored, leaving the frame
unchanged and raising nothing, at registration or at use. -/
theorem unknown_feature_op_tag_silently_ignored (df : Frame) (op : FeatOp)
    (h1 : op.type ≠ "arithmetic") (h2 : op.type ≠ "window")
    (h3 : op.type ≠ "interaction") :
    applyFeatOp df op = .ok df := by
  unfold applyFeatOp
  rw [if_neg h1, if_neg h2, if_neg h3]
  rfl

/-- C7 witness at the concrete bogus descriptor and scenario frame. -/
theorem unknown_feature_op_tag_silently_ignored_witness :
    applyFeatOp frameC6 bogusOp = .ok frameC6 :=
  unknown_feature_op_tag_silently_ignored frameC6 bogusOp
    (by decide) (by decide) (by decide)

/-- C9 counterexample: `StatisticalValidator` configured with a mean
check on column `x`, applied to a frame without `x`, raises `KeyError`
instead of returning false — refuting the claim that every shipped
validator returns false when a configured column is absent. -/
theorem statistical_validator_raises_on_missing_column :
    statValX.validate frameNoX = .error "KeyError: x" := by
  rfl

/-- Every recognised check type of `StatisticalValidator` subscripts the
frame before computing, so a missing column turns into a `KeyError`. -/
theorem statValue_missing (df : Frame) (ch : StatCheck)
    (htype : ch.type = "mean" ∨ ch.type = "std" ∨ ch.type = "median" ∨
      ch.type = "skew")
    (hmiss : getCol? df ch.column = none) :
    statValue df ch = .error ("KeyError: " ++ ch.column) := by
  have hkey : getCol df ch.column = .error ("KeyError: " ++ ch.column) := by
    unfold getCol
    rw [hmiss]
  unfold statValue
  rcases htype with h | h | h | h
  · rw [if_pos h, hkey]
    rfl
  · rw [if_neg (by rw [h]; decide), if_pos h, hkey]
    rfl
  · rw [if_neg (by rw [h]; decide), if_neg (by rw [h]; decide), if_pos h, hkey]
    rfl
  · rw [if_neg (by rw [h]; decide), if_neg (by rw [h]; decide),
      if_neg (by rw [h]; decide), if_pos h, hkey]
    rfl

/-- C9 (amended): the four `data_quality.py` validators
(`ColumnExistenceValidator`, `DataTypeValidator`, `ValueRangeValidator`,
`UniqueValidator`) guard every configured column and return `false`
rather than raising when it is absent; but `StatisticalValidator` of
`advanced.py` subscripts `data[column]` with no guard, so a missing
column in its first check raises `KeyError` instead of returning
false. -/
theorem shipped_validators_missing_column_behavior :
    (∀ (v : ColumnExistenceValidator) (df : Frame) (c : String),
        c ∈ v.required_columns → getCol? df c = none →
        v.validate df = false) ∧
    (∀ (v : DataTypeValidator) (df : Frame) (kv : String × String),
        kv ∈ v.dtype_requirements → getCol? df kv.1 = none →
        v.validate df = false) ∧
    (∀ (v : ValueRangeValidator) (df : Frame)
        (r : String × Option ℚ × Option ℚ),
        r ∈ v.ranges → getCol? df r.1 = none → v.validate df = false) ∧
    (∀ (v : UniqueValidator) (df : Frame) (c : String),
        c ∈ v.columns → getCol? df c = none → v.validate df = false) ∧
    (∀ (v : StatisticalValidator) (df : Frame) (ch : StatCheck)
        (rest : List StatCheck),
        v.checks = ch :: rest →
        (ch.type = "mean" ∨ ch.type = "std" ∨ ch.type = "median" ∨
          ch.type = "skew") →
        getCol? df ch.column = none →
        v.validate df = .error ("KeyError: " ++ ch.column)) := by
  refine ⟨?_, ?_, ?_, ?_, ?_⟩
  · intro v df c hc hmiss
    rcases Bool.eq_false_or_eq_true (v.validate df) with h | h
    · exfalso
      unfold ColumnExistenceValidator.validate at h
      rw [List.all_eq_true] at h
      have := h c hc
      rw [hmiss] at this
      simp at this
    · exact h
  · intro v df kv hkv hmiss
    rcases Bool.eq_false_or_eq_true (v.validate df) with h | h
    · exfalso
      unfold DataTypeValidator.validate at h
      rw [List.all_eq_true] at h
      have := h kv hkv
      rw [hmiss] at this
      simp at this
    · exact h
  · intro v df r hr hmiss
    rcases Bool.eq_false_or_eq_true (v.validate df) with h | h
    · exfalso
      unfold ValueRangeValidator.validate at h
      rw [List.all_eq_true] at h
      have := h r hr
      rw [hmiss] at this
      simp at this
    · exact h
  · intro v df c hc hmiss
    rcases Bool.eq_false_or_eq_true (v.validate df) with h | h
    · exfalso
      unfold UniqueValidator.validate at h
      rw [List.all_eq_true] at h
      have := h c hc
      rw [hmiss] at this
      simp at this
    · exact h
  · intro v df ch rest hchecks htype hmiss
    unfold StatisticalValidator.validate
    rw [hchecks]
    simp only [runStatChecks, statValue_missing df ch htype hmiss]
    rfl

/-- C9 witness: `ColumnExistenceValidator` returns false and
`StatisticalValidator` raises, on the same frame missing column `x`. -/
theorem shipped_validators_missing_column_behavior_witness :
    ColumnExistenceValidator.validate { required_columns := ["x"] } frameNoX
      = false ∧
    statValX.validate frameNoX = .error ("KeyError: " ++ "x") :=
  ⟨shipped_validators_missing_column_behavior.1
      { required_columns := ["x"] } frameNoX "x"
      (List.mem_singleton.mpr rfl) rfl,
   shipped_validators_missing_column_behavior.2.2.2.2
      statValX frameNoX statMeanCheckX [] rfl (Or.inl rfl) rfl⟩
